import Mathlib

/-
Verification of the FunctionExecutor control plane
(cloudfunction/core/executor.py) against its natural-language
specification.

The Python code is shallowly embedded:
* `deploy_function`, `execute`, `invoke_function` and the cleanup task
  become pure Lean functions over an explicit filesystem / record state;
* external collaborators (utf-8 decoding, the Python compiler, pip,
  the registry, the execution backend) become oracle parameters;
* the concurrent part of `execute` (the asyncio semaphore and the
  per-invocation record status) becomes a small-step transition system,
  one transition per block between cooperative suspension points.
-/

/-! ### Byte and string helpers (deploy_function validation) -/

/-- ASCII whitespace bytes, as stripped by Python `bytes.strip()`. -/
def isWsByte (b : Nat) : Bool :=
  b == 32 || b == 9 || b == 10 || b == 13 || b == 11 || b == 12

/-- `bytes.strip()`: drop ASCII whitespace from both ends. -/
def stripBytes (bs : List Nat) : List Nat :=
  ((bs.dropWhile isWsByte).reverse.dropWhile isWsByte).reverse

/-- Substring test on character lists (Python `pat in s`). -/
def containsSub : List Char → List Char → Bool
  | [], pat => pat.isEmpty
  | s@(_ :: rest), pat => pat.isPrefixOf s || containsSub rest pat

/-- Python `pat in s` on strings. -/
def strContains (s pat : String) : Bool :=
  containsSub s.data pat.data

/-- Codepoints of a string, used to build concrete byte payloads. -/
def strBytes (s : String) : List Nat :=
  s.data.map Char.toNat

/-! ### Filesystem model

The deployment code manipulates the filesystem through
`os.path.exists`, `open(..).write`, `shutil.copy2` and `os.remove`.
We model the filesystem as a partial map from path strings to byte
contents. -/

abbrev Fs : Type := String → Option (List Nat)

def fsSet (fs : Fs) (p : String) (v : List Nat) : Fs :=
  fun q => if q = p then some v else fs q

def fsRemove (fs : Fs) (p : String) : Fs :=
  fun q => if q = p then none else fs q

def fsExists (fs : Fs) (p : String) : Bool :=
  (fs p).isSome

def emptyFs : Fs := fun _ => none

/-- executor.py line 195: f-string for the function's code file. -/
def code_path (project function_name : String) : String :=
  "cloudfunction/projects/" ++ project ++ "/" ++ function_name ++ ".py"

/-- executor.py line 196: the transient backup co-located with the code file. -/
def backup_path (project function_name : String) : String :=
  code_path project function_name ++ ".bak"

/-- executor.py line 207: the project-level dependency manifest. -/
def req_path (project : String) : String :=
  "cloudfunction/projects/" ++ project ++ "/requirements.txt"

/-! ### The three paths used by one deployment are pairwise distinct.

They end in distinct characters, so comparing last characters settles it. -/

theorem string_data_append (s t : String) : (s ++ t).data = s.data ++ t.data := rfl

def lastChar (s : String) : Option Char := s.data.getLast?

theorem getLast?_append_right {α : Type} (l₁ l₂ : List α) (h : l₂ ≠ []) :
    (l₁ ++ l₂).getLast? = l₂.getLast? := by
  rw [List.getLast?_append]
  cases h2 : l₂.getLast? with
  | none => exact absurd (List.getLast?_eq_none_iff.mp h2) h
  | some c => rfl

theorem lastChar_append (s t : String) (h : t.data ≠ []) :
    lastChar (s ++ t) = lastChar t := by
  unfold lastChar
  rw [string_data_append]
  exact getLast?_append_right s.data t.data h

theorem lastChar_code_path (p f : String) : lastChar (code_path p f) = some 'y' := by
  unfold code_path
  rw [lastChar_append]
  · rfl
  · decide

theorem lastChar_backup_path (p f : String) : lastChar (backup_path p f) = some 'k' := by
  unfold backup_path
  rw [lastChar_append]
  · rfl
  · decide

theorem lastChar_req_path (p : String) : lastChar (req_path p) = some 't' := by
  unfold req_path
  rw [lastChar_append]
  · rfl
  · decide

theorem code_ne_backup (p f : String) : code_path p f ≠ backup_path p f := by
  intro h
  have hy := lastChar_code_path p f
  rw [h, lastChar_backup_path] at hy
  exact absurd hy (by decide)

theorem req_ne_code (p q f : String) : req_path p ≠ code_path q f := by
  intro h
  have ht := lastChar_req_path p
  rw [h, lastChar_code_path] at ht
  exact absurd ht (by decide)

theorem req_ne_backup (p q f : String) : req_path p ≠ backup_path q f := by
  intro h
  have ht := lastChar_req_path p
  rw [h, lastChar_backup_path] at ht
  exact absurd ht (by decide)

/-! ### Deployment transaction (executor.py, deploy_function, lines 170-246)

External effects become oracles:
* `decode`   — `bytes.decode("utf-8")` (line 185), `none` on UnicodeDecodeError;
* `compiles` — `compile(code_str, "<string>", "exec")` (line 186), `false` on SyntaxError;
* `pipInstallOk` — the `subprocess.run([pip, "install", ...], check=True)`
  call (line 219), `false` when it raises.
The environment store (`EnvManager.update_project_env`, line 235) lives
outside this file's sources; it is kept as an opaque-ish merge over an
association list. -/

inductive DeployErr where
  | emptyCode
  | invalidFormat
  | missingMain
  | depInstall
deriving DecidableEq

/-- The three `ValueError`s raised by validation (lines 180-192), as opposed
to the dependency-install failure (line 226). -/
def DeployErr.isValidationError : DeployErr → Bool
  | .depInstall => false
  | _ => true

abbrev EnvStore : Type := List (String × String)

/-- Modelled from the spec: the Environment Store collaborator
(`EnvManager.update_project_env`, whose module is not among the sources)
"merges key/value pairs into project-scoped storage" (spec section 6). -/
def envMerge (st : EnvStore) (kvs : List (String × String)) : EnvStore :=
  kvs.foldl (fun acc kv => (kv.1, kv.2) :: acc.filter (fun e => !(e.1 == kv.1))) st

structure DeployOracles where
  decode : List Nat → Option String
  compiles : String → Bool
  pipInstallOk : Bool

structure DeployOut where
  fs : Fs
  env : EnvStore
  result : Except DeployErr Unit

/-- Shallow embedding of `FunctionExecutor.deploy_function`
(executor.py lines 170-246), for project `project`.  The steps appear in
source order: validation (180-192), backup of an existing code file
(195-199), code write (203-204), manifest write (207-212), dependency
install with rollback (215-226), backup removal (229-230), env-var merge
(233-235). -/
def deploy_function (oracles : DeployOracles) (project function_name : String)
    (code : List Nat) (requirements : Option (List Nat))
    (env_vars : Option (List (String × String))) (fs : Fs) (env : EnvStore) :
    DeployOut :=
  -- line 180: `if not code or len(code.strip()) == 0`
  if code = [] ∨ (stripBytes code).length = 0 then
    ⟨fs, env, .error .emptyCode⟩
  else
    -- line 185: `code_str = code.decode("utf-8")`
    match oracles.decode code with
    | none => ⟨fs, env, .error .invalidFormat⟩
    | some code_str =>
      -- line 186: `compile(code_str, "<string>", "exec")`
      if oracles.compiles code_str = false then
        ⟨fs, env, .error .invalidFormat⟩
      -- line 189: `if "def main(" not in code_str and "async def main(" not in code_str`
      else if strContains code_str "def main(" = false ∧
          strContains code_str "async def main(" = false then
        ⟨fs, env, .error .missingMain⟩
      else
        let cp := code_path project function_name
        let bp := backup_path project function_name
        let rp := req_path project
        -- lines 197-199: backup the existing code file, if any
        let fs1 := match fs cp with
          | some prev => fsSet fs bp prev
          | none => fs
        -- lines 203-204: write the code file
        let fs2 := fsSet fs1 cp code
        -- lines 208-212: overwrite the project manifest when supplied
        let fs3 := match requirements with
          | some r => fsSet fs2 rp r
          | none => fs2
        -- lines 215-226: install dependencies when a manifest file exists;
        -- on failure restore the code file from the backup and raise
        if fsExists fs3 rp = true ∧ oracles.pipInstallOk = false then
          let fs4 := match fs3 bp with
            | some b => fsSet fs3 cp b
            | none => fs3
          ⟨fs4, env, .error .depInstall⟩
        else
          -- lines 229-230: remove the backup file
          let fs5 := if fsExists fs3 bp = true then fsRemove fs3 bp else fs3
          -- lines 233-235: merge env vars into the project env store
          let env5 := match env_vars with
            | some kvs => envMerge env kvs
            | none => env
          ⟨fs5, env5, .ok ()⟩

/-- Split a character list into its lines (separator `\n`), accumulator
style; used only by the specification-side predicate below. -/
def splitLinesAux : List Char → List Char → List (List Char)
  | [], acc => [acc.reverse]
  | c :: rest, acc =>
    if c = '\n' then acc.reverse :: splitLinesAux rest []
    else splitLinesAux rest (c :: acc)

/-- Modelled from the spec: "must declare a `main` entry point (sync or
async)" (spec section 4.4, step 1).  A Python source text declares a
top-level entry point named `main` exactly when some line of the text
begins with `def main` or `async def main` at indentation zero.  This is
the specification-side predicate, to be compared with the substring
check the source performs. -/
def specDeclaresMain (s : String) : Bool :=
  (splitLinesAux s.data []).any
    (fun l => ("def main".data).isPrefixOf l || ("async def main".data).isPrefixOf l)

/-! ### Invocation dispatch (executor.py, execute, lines 90-149)

`execute` runs under the admission semaphore; its sequential data flow —
which failure arm produces which structured result and which final
record — is embedded as a pure function.  Oracles:
* `hasState`  — whether `self.state` is set (line 115);
* `hasMaster` — whether `self.state.get_master()` returns an instance (118-120);
* `backend`   — the awaited `master.execute_function(...)` call (line 124),
  `.error msg` when it raises.
Timestamps `t0` (admission, line 107) and `t1` (completion, lines 128/142)
are passed in. -/

inductive RecordStatus where
  | running
  | completed
  | failed
deriving DecidableEq

/-- One entry of `self.running_functions` (lines 106-110, 127-128, 141-143). -/
structure Record where
  start_time : Int
  status : RecordStatus
  end_time : Option Int
  error : Option String
  function_name : String
deriving DecidableEq

/-- The dictionaries `execute` returns (lines 131-134, 146-149). -/
inductive ExecResult (α : Type) where
  | success (result : α)
  | error (msg : String)
deriving DecidableEq

/-- Message of `Exception("状态管理器未初始化")` (line 116). -/
def stateMissingMsg : String := "状态管理器未初始化"

/-- Message of `Exception("无法获取主进程实例")` (line 120). -/
def masterMissingMsg : String := "无法获取主进程实例"

/-- Shallow embedding of `FunctionExecutor.execute` (lines 90-149): the
returned dictionary together with the final state of the invocation's
record in `self.running_functions`.  The record is created RUNNING at
admission (lines 106-110); the catch-all `except Exception` (lines
139-149) marks it failed, stamps `end_time` and stores the message, then
returns the structured error dictionary instead of re-raising. -/
def execute (α : Type) (function_name : String) (hasState hasMaster : Bool)
    (backend : Except String α) (t0 t1 : Int) : ExecResult α × Record :=
  if hasState = false then
    (.error stateMissingMsg, ⟨t0, .failed, some t1, some stateMissingMsg, function_name⟩)
  else if hasMaster = false then
    (.error masterMissingMsg, ⟨t0, .failed, some t1, some masterMissingMsg, function_name⟩)
  else
    match backend with
    | .ok v => (.success v, ⟨t0, .completed, some t1, none, function_name⟩)
    | .error e => (.error e, ⟨t0, .failed, some t1, some e, function_name⟩)

/-! ### Direct dispatch path (executor.py, invoke_function, lines 248-267)

This path resolves the backend through `self.registry.get_project` and,
unlike `execute`, ends in `except Exception as e: ... raise` — failures
propagate to the caller.  Raising is modelled by the outer `Except`. -/

/-- Shallow embedding of `FunctionExecutor.invoke_function`
(lines 248-267).  `hasProject` is the truthiness of
`self.registry.get_project(self.project_name)` (line 252); `backendRun`
is the awaited `project.execute_function_async(...)` call (line 257).
`.error` of the outer `Except` models an exception propagating to the
caller. -/
def invoke_function (α : Type) (project_name : String) (hasProject : Bool)
    (backendRun : Except String α) : Except String (ExecResult α) :=
  if hasProject = false then
    .error ("Project " ++ project_name ++ " not found")
  else
    match backendRun with
    | .ok v => .ok (.success v)
    | .error e => .error e

/-! ### Record garbage collection (executor.py, _cleanup_task, lines 72-88)

One sweep of the `while True` body: collect every id whose record has
`current_time - start_time > 3600` and delete it (lines 76-83); then
sleep 300 seconds, or 60 seconds when the body raised (lines 85-88).
The record map is an association list mirroring `self.running_functions`. -/

abbrev RecordMap : Type := List (String × Record)

/-- One sweep of the cleanup loop body (lines 76-83): exactly the records
whose age exceeds 3600 seconds are deleted, regardless of status. -/
def cleanup_sweep (current_time : Int) (m : RecordMap) : RecordMap :=
  m.filter (fun e => !(decide (current_time - e.2.start_time > 3600)))

/-- One iteration of the `while True` loop (lines 74-88): on a normal pass
the map is swept and the task sleeps 300 s; when the body raises
(`errored = true`) the map is left as is and the task sleeps 60 s before
retrying.  The iteration always produces a successor state — the loop
never exits. -/
def cleanup_iteration (errored : Bool) (current_time : Int) (m : RecordMap) :
    RecordMap × Nat :=
  if errored then (m, 60) else (cleanup_sweep current_time m, 300)

/-! ### Invocation identifiers (executor.py, line 100)

`func_id = f"{self.project_name}:{function_name}:{time.time()}"`; the
timestamp component is the decimal rendering of `time.time()`. -/

/-- Shallow embedding of the id construction at line 100. -/
def mkFuncId (project_name function_name timestamp : String) : String :=
  project_name ++ ":" ++ function_name ++ ":" ++ timestamp

/-- Python dict assignment `self.running_functions[func_id] = record`
(line 106): overwrites any existing binding for the same key. -/
def recordsSet (m : RecordMap) (id : String) (r : Record) : RecordMap :=
  (id, r) :: m.filter (fun e => !(e.1 == id))

/-- Python dict lookup `self.running_functions.get(func_id)` (line 160). -/
def recordsGet (m : RecordMap) (id : String) : Option Record :=
  (m.find? (fun e => e.1 == id)).map (fun e => e.2)

/-! ### Admission control and lifecycle, as a transition system

`execute` (lines 90-149) runs each invocation through
`async with self.semaphore` where `self.semaphore = asyncio.Semaphore(10)`
(line 38).  Under asyncio's cooperative scheduler, the code between two
suspension points runs atomically, so one invocation contributes exactly
two atomic transitions:

* `acquire` — the semaphore grants a slot (possible only when its
  counter is positive; a caller finding it at zero parks in the wait
  queue and is never rejected) and the invocation's record is created
  with status `running` (lines 104-110); there is no `await` in between.
* `finish` — the backend call returns or raises and the record is
  stamped `completed` (lines 127-128) or `failed` (lines 141-143) while
  the slot is released on exit from the `async with` block; again no
  suspension separates the status write from the release.

A task is `waiting` before acquiring, `running` while it holds a slot
(equivalently: while its record's status is `running`), and
`done failed?` afterwards. -/

inductive TaskPhase where
  | waiting
  | running
  | done (failed : Bool)
deriving DecidableEq

def isRunningPhase : TaskPhase → Bool
  | .running => true
  | _ => false

/-- Number of invocations whose record is currently in the running state. -/
def runningCount (ts : List TaskPhase) : Nat :=
  ts.countP isRunningPhase

/-- The scheduler state: the semaphore counter and the phase of every
submitted invocation. -/
structure ExecState where
  sem : Nat
  tasks : List TaskPhase
deriving DecidableEq

/-- `n` concurrently submitted invocations against a fresh executor:
`asyncio.Semaphore(10)` (line 38) and every task parked before the
`async with`. -/
def initExecState (n : Nat) : ExecState :=
  ⟨10, List.replicate n .waiting⟩

/-- One atomic transition of the cooperative scheduler (see above). -/
inductive ExecStep : ExecState → ExecState → Prop
  | acquire (s : ExecState) (i : Nat)
      (hw : s.tasks[i]? = some .waiting) (hs : 0 < s.sem) :
      ExecStep s ⟨s.sem - 1, s.tasks.set i .running⟩
  | finish (s : ExecState) (i : Nat) (f : Bool)
      (hr : s.tasks[i]? = some .running) :
      ExecStep s ⟨s.sem + 1, s.tasks.set i (.done f)⟩

/-- Reflexive-transitive closure: everything the scheduler can reach. -/
def ExecReach (s s' : ExecState) : Prop :=
  Relation.ReflTransGen ExecStep s s'

/-- Auxiliary: replacing one element changes `countP` by the predicate's
values on the old and new elements. -/
theorem countP_set_balance {α : Type} (p : α → Bool) (l : List α) (i : Nat)
    (a b : α) (h : l[i]? = some a) :
    (l.set i b).countP p + (if p a then 1 else 0) =
      l.countP p + (if p b then 1 else 0) := by
  induction l generalizing i with
  | nil => simp at h
  | cons x xs ih =>
    cases i with
    | zero =>
      simp only [List.getElem?_cons_zero, Option.some.injEq] at h
      subst h
      simp only [List.set_cons_zero, List.countP_cons]
      omega
    | succ n =>
      simp only [List.getElem?_cons_succ] at h
      simp only [List.set_cons_succ, List.countP_cons]
      have := ih n h
      omega

/-- The semaphore invariant: available slots plus running invocations
always equal the capacity 10. -/
def SemInvariant (s : ExecState) : Prop :=
  s.sem + runningCount s.tasks = 10


theorem semInvariant_init (n : Nat) : SemInvariant (initExecState n) := by
  unfold SemInvariant initExecState runningCount
  have h0 : (List.replicate n TaskPhase.waiting).countP isRunningPhase = 0 := by
    apply List.countP_eq_zero.mpr
    intro a ha
    rw [List.eq_of_mem_replicate ha]
    decide
  simp [h0]

theorem semInvariant_step {s s' : ExecState} (hstep : ExecStep s s')
    (hinv : SemInvariant s) : SemInvariant s' := by
  unfold SemInvariant runningCount at hinv ⊢
  cases hstep with
  | acquire i hw hs =>
    have hbal := countP_set_balance isRunningPhase s.tasks i .waiting .running hw
    simp only [isRunningPhase] at hbal
    simp only [Bool.false_eq_true, if_false, if_true] at hbal
    show s.sem - 1 + (s.tasks.set i TaskPhase.running).countP isRunningPhase = 10
    omega
  | finish i f hr =>
    have hbal := countP_set_balance isRunningPhase s.tasks i .running (.done f) hr
    simp only [isRunningPhase] at hbal
    simp only [Bool.false_eq_true, if_false, if_true] at hbal
    show s.sem + 1 + (s.tasks.set i (TaskPhase.done f)).countP isRunningPhase = 10
    omega

theorem semInvariant_reach {s s' : ExecState} (h : ExecReach s s')
    (hinv : SemInvariant s) : SemInvariant s' := by
  induction h with
  | refl => exact hinv
  | tail _ hstep ih => exact semInvariant_step hstep ih

/-- A single step never moves a task from `waiting` to anything but
`waiting` or `running`: a parked request is never rejected. -/
theorem step_no_rejection {s s' : ExecState} (hstep : ExecStep s s') (i : Nat)
    (hw : s.tasks[i]? = some .waiting) :
    s'.tasks[i]? = some .waiting ∨ s'.tasks[i]? = some .running := by
  cases hstep with
  | acquire j hj hs =>
    by_cases hij : j = i
    · subst hij
      right
      have hlen : j < s.tasks.length := (List.getElem?_eq_some_iff.mp hj).1
      show (s.tasks.set j TaskPhase.running)[j]? = some TaskPhase.running
      simp [List.getElem?_set_self hlen]
    · left
      show (s.tasks.set j TaskPhase.running)[i]? = some TaskPhase.waiting
      rw [List.getElem?_set_ne hij]
      exact hw
  | finish j f hj =>
    by_cases hij : j = i
    · subst hij
      rw [hj] at hw
      simp at hw
    · left
      show (s.tasks.set j (TaskPhase.done f))[i]? = some TaskPhase.waiting
      rw [List.getElem?_set_ne hij]
      exact hw

/-- A single step never moves a task out of a terminal phase. -/
theorem step_preserves_done {s s' : ExecState} (hstep : ExecStep s s')
    (i : Nat) (f : Bool) (hd : s.tasks[i]? = some (.done f)) :
    s'.tasks[i]? = some (.done f) := by
  cases hstep with
  | acquire j hj hs =>
    by_cases hij : j = i
    · subst hij
      rw [hj] at hd
      simp at hd
    · show (s.tasks.set j TaskPhase.running)[i]? = some (TaskPhase.done f)
      rw [List.getElem?_set_ne hij]
      exact hd
  | finish j g hj =>
    by_cases hij : j = i
    · subst hij
      rw [hj] at hd
      simp at hd
    · show (s.tasks.set j (TaskPhase.done g))[i]? = some (TaskPhase.done f)
      rw [List.getElem?_set_ne hij]
      exact hd

/-! ## Claim theorems -/

/-- C2: every failure of `execute` — missing state manager, missing master
instance, or a raising backend call — is returned as the structured
dictionary `{status: "error", error: msg}` instead of propagating, and the
invocation's record ends `failed` with an end time and that same error
message.  (The three conjuncts cover the three failure arms; `execute`
returns a plain value, so no exception reaches the caller.) -/
theorem execute_structured_failure (α : Type) (function_name : String)
    (t0 t1 : Int) :
    (∀ hasMaster backend,
      execute α function_name false hasMaster backend t0 t1 =
        (ExecResult.error stateMissingMsg,
         ⟨t0, .failed, some t1, some stateMissingMsg, function_name⟩)) ∧
    (∀ backend,
      execute α function_name true false backend t0 t1 =
        (ExecResult.error masterMissingMsg,
         ⟨t0, .failed, some t1, some masterMissingMsg, function_name⟩)) ∧
    (∀ e, execute α function_name true true (Except.error e) t0 t1 =
      (ExecResult.error e, ⟨t0, .failed, some t1, some e, function_name⟩)) := by
  refine ⟨fun hasMaster backend => ?_, fun backend => ?_, fun e => ?_⟩ <;>
    simp [execute]

/-- C5 counterexample: invoking through `invoke_function` on an unknown
project does NOT return the structured `{status: "error", ...}` dictionary;
the `ValueError` propagates to the caller (the `except` block at lines
265-267 re-raises).  The claim — that this path converts failures into
structured results — is therefore false at this input. -/
theorem invoke_function_unknown_project_raises :
    invoke_function Nat "p" false (Except.ok 0) =
      Except.error "Project p not found" := rfl

/-- C5 amended: `invoke_function` applies the structured-result convention
only on success; every failure (unknown project, backend error) propagates
as a raised exception to the caller. -/
theorem invoke_function_propagates_failures (α : Type) (project_name : String) :
    (∀ backendRun : Except String α,
      invoke_function α project_name false backendRun =
        Except.error ("Project " ++ project_name ++ " not found")) ∧
    (∀ e, invoke_function α project_name true (Except.error e) =
      Except.error e) ∧
    (∀ v, invoke_function α project_name true (Except.ok v) =
      Except.ok (.success v)) := by
  refine ⟨fun backendRun => ?_, fun e => ?_, fun v => ?_⟩ <;>
    simp [invoke_function]

/-- C7: one sweep of the cleanup task deletes exactly the records whose
`start_time` is more than 3600 seconds old — regardless of their status,
running included — and keeps every younger record; a normal iteration then
sleeps 300 seconds (5 minutes) while an iteration whose body raised keeps
the map and sleeps 60 seconds (1 minute) before retrying, so the loop
always continues. -/
theorem cleanup_sweep_retention (current_time : Int) (m : RecordMap) :
    (∀ id r, (id, r) ∈ cleanup_sweep current_time m ↔
      ((id, r) ∈ m ∧ current_time - r.start_time ≤ 3600)) ∧
    cleanup_iteration false current_time m = (cleanup_sweep current_time m, 300) ∧
    cleanup_iteration true current_time m = (m, 60) := by
  refine ⟨fun id r => ?_, rfl, rfl⟩
  simp [cleanup_sweep, List.mem_filter, not_lt]

/-- C8: the id built at line 100 is `f"{project}:{function}:{time.time()}"`;
two concurrent admissions for the same project and function that read the
same clock value produce the SAME id, and the second record creation
overwrites the first — after the two creates the map holds a single record.
This refutes the claimed per-record uniqueness (the spec itself flags the
naive timestamp id as a bug, section 9). -/
theorem funcId_collision_overwrites :
    (⟨1, .running, none, none, "f"⟩ : Record) ≠ ⟨2, .running, none, none, "f"⟩ ∧
    mkFuncId "p" "f" "1700000000.0" = mkFuncId "p" "f" "1700000000.0" ∧
    (recordsSet (recordsSet [] (mkFuncId "p" "f" "1700000000.0")
        ⟨1, .running, none, none, "f"⟩)
      (mkFuncId "p" "f" "1700000000.0") ⟨2, .running, none, none, "f"⟩).length = 1 ∧
    recordsGet (recordsSet (recordsSet [] (mkFuncId "p" "f" "1700000000.0")
        ⟨1, .running, none, none, "f"⟩)
      (mkFuncId "p" "f" "1700000000.0") ⟨2, .running, none, none, "f"⟩)
      (mkFuncId "p" "f" "1700000000.0") =
      some ⟨2, .running, none, none, "f"⟩ := by
  refine ⟨by decide, rfl, by decide, by decide⟩

/-- C6: under the `asyncio.Semaphore(10)` admission gate, in every state the
scheduler can reach from `n` concurrently submitted invocations, at most 10
invocation records are simultaneously in the running state; and a parked
(waiting) request is never rejected by a step — it either keeps waiting or
is admitted to running. -/
theorem admission_bound_ten :
    (∀ n s, ExecReach (initExecState n) s → runningCount s.tasks ≤ 10) ∧
    (∀ (s s' : ExecState) (i : Nat), ExecStep s s' →
      s.tasks[i]? = some TaskPhase.waiting →
      s'.tasks[i]? = some TaskPhase.waiting ∨
      s'.tasks[i]? = some TaskPhase.running) := by
  constructor
  · intro n s hreach
    have hinv := semInvariant_reach hreach (semInvariant_init n)
    unfold SemInvariant at hinv
    omega
  · intro s s' i hstep hw
    exact step_no_rejection hstep i hw

/-- C6 witness: the bound holds in a concrete reachable state, and a
concrete admission step takes a waiting task to running, not to rejection. -/
theorem admission_bound_ten_witness :
    runningCount (initExecState 3).tasks ≤ 10 ∧
    ((⟨9, [TaskPhase.running]⟩ : ExecState).tasks[0]? = some TaskPhase.waiting ∨
     (⟨9, [TaskPhase.running]⟩ : ExecState).tasks[0]? = some TaskPhase.running) := by
  constructor
  · exact admission_bound_ten.1 3 (initExecState 3) Relation.ReflTransGen.refl
  · exact admission_bound_ten.2 ⟨10, [TaskPhase.waiting]⟩ ⟨9, [TaskPhase.running]⟩ 0
      (ExecStep.acquire ⟨10, [TaskPhase.waiting]⟩ 0 rfl (by decide)) rfl

/-- C9: lifecycle monotonicity — along every scheduler trace, once an
invocation's record is in a terminal state (completed or failed, phase
`done`), every later state still shows it terminal; it is never observed
running again. -/
theorem lifecycle_monotonic {s s' : ExecState} (h : ExecReach s s') (i : Nat)
    (f : Bool) (hd : s.tasks[i]? = some (.done f)) :
    s'.tasks[i]? = some (.done f) := by
  induction h with
  | refl => exact hd
  | tail _ hstep ih => exact step_preserves_done hstep i f ih

/-- C9 witness: a record already failed stays failed across a concrete
step in which another invocation is admitted. -/
theorem lifecycle_monotonic_witness :
    (⟨9, [TaskPhase.done true, TaskPhase.running]⟩ : ExecState).tasks[0]? =
      some (TaskPhase.done true) :=
  lifecycle_monotonic
    (Relation.ReflTransGen.single
      (ExecStep.acquire ⟨10, [TaskPhase.done true, TaskPhase.waiting]⟩ 1 rfl (by decide)))
    0 true rfl

/-! ## Deployment claims -/

/-- Helper: on the rollback path — validation passes, a prior code file
exists (so a backup is taken), a manifest file is present after the writes,
and pip fails — `deploy_function` raises the dependency-install error, the
code file again holds its prior content, and the backup file is still on
disk. -/
theorem deploy_rollback_props (oracles : DeployOracles) (p f : String)
    (code : List Nat) (requirements : Option (List Nat))
    (env_vars : Option (List (String × String))) (fs : Fs) (env : EnvStore)
    (code_str : String) (c0 : List Nat)
    (h1 : ¬(code = [] ∨ (stripBytes code).length = 0))
    (hdec : oracles.decode code = some code_str)
    (hcomp : oracles.compiles code_str = true)
    (hmain : ¬(strContains code_str "def main(" = false ∧
      strContains code_str "async def main(" = false))
    (hprior : fs (code_path p f) = some c0)
    (hreq : requirements.isSome = true ∨ fsExists fs (req_path p) = true)
    (hpip : oracles.pipInstallOk = false) :
    (deploy_function oracles p f code requirements env_vars fs env).result =
      Except.error DeployErr.depInstall ∧
    (deploy_function oracles p f code requirements env_vars fs env).fs
      (code_path p f) = some c0 ∧
    (deploy_function oracles p f code requirements env_vars fs env).fs
      (backup_path p f) = some c0 := by
  have hcp_bp := code_ne_backup p f
  have hrp_cp := req_ne_code p p f
  have hrp_bp := req_ne_backup p p f
  cases requirements with
  | some r =>
    have hbp3 : fsSet (fsSet (fsSet fs (backup_path p f) c0) (code_path p f) code)
        (req_path p) r (backup_path p f) = some c0 := by
      simp [fsSet, hrp_bp.symm, hcp_bp.symm]
    have hrp3 : fsExists (fsSet (fsSet (fsSet fs (backup_path p f) c0)
        (code_path p f) code) (req_path p) r) (req_path p) = true := by
      simp [fsExists, fsSet]
    simp only [deploy_function, hdec, hprior]
    rw [if_neg h1, if_neg (by simp [hcomp]), if_neg hmain,
      if_pos ⟨hrp3, hpip⟩, hbp3]
    refine ⟨rfl, ?_, ?_⟩
    · simp [fsSet]
    · simp [fsSet, hcp_bp.symm, hrp_bp.symm]
  | none =>
    have hreq' : fsExists fs (req_path p) = true := by
      rcases hreq with h | h
      · simp at h
      · exact h
    have hbp3 : fsSet (fsSet fs (backup_path p f) c0) (code_path p f) code
        (backup_path p f) = some c0 := by
      simp [fsSet, hcp_bp.symm]
    have hrp3 : fsExists (fsSet (fsSet fs (backup_path p f) c0)
        (code_path p f) code) (req_path p) = true := by
      simpa [fsExists, fsSet, hrp_cp, hrp_bp] using hreq'
    simp only [deploy_function, hdec, hprior]
    rw [if_neg h1, if_neg (by simp [hcomp]), if_neg hmain,
      if_pos ⟨hrp3, hpip⟩, hbp3]
    refine ⟨rfl, ?_, ?_⟩
    · simp [fsSet]
    · simp [fsSet, hcp_bp.symm, hbp3]

/-- C1: for a deployment over an existing code file whose dependency
installation fails, the code file's content after the operation equals its
content before it, and the operation raises the dependency-install error. -/
theorem deploy_rollback_restores_code (oracles : DeployOracles) (p f : String)
    (code : List Nat) (requirements : Option (List Nat))
    (env_vars : Option (List (String × String))) (fs : Fs) (env : EnvStore)
    (code_str : String) (c0 : List Nat)
    (h1 : ¬(code = [] ∨ (stripBytes code).length = 0))
    (hdec : oracles.decode code = some code_str)
    (hcomp : oracles.compiles code_str = true)
    (hmain : ¬(strContains code_str "def main(" = false ∧
      strContains code_str "async def main(" = false))
    (hprior : fs (code_path p f) = some c0)
    (hreq : requirements.isSome = true ∨ fsExists fs (req_path p) = true)
    (hpip : oracles.pipInstallOk = false) :
    (deploy_function oracles p f code requirements env_vars fs env).result =
      Except.error DeployErr.depInstall ∧
    (deploy_function oracles p f code requirements env_vars fs env).fs
      (code_path p f) = some c0 := by
  have h := deploy_rollback_props oracles p f code requirements env_vars fs env
    code_str c0 h1 hdec hcomp hmain hprior hreq hpip
  exact ⟨h.1, h.2.1⟩

/-- Concrete deployment used to instantiate the rollback scenarios: a valid
payload, a prior code file `old`, a supplied manifest, and a failing pip. -/
def c1Text : String := "def main():\n    return 1"

def c1Oracles : DeployOracles := ⟨fun _ => some c1Text, fun _ => true, false⟩

def c1Fs : Fs := fun q => if q = code_path "p" "f" then some (strBytes "old") else none

def c1Out : DeployOut :=
  deploy_function c1Oracles "p" "f" (strBytes c1Text)
    (some (strBytes "requests==2.0")) none c1Fs []

/-- C1 witness: the rollback theorem applied at the concrete deployment. -/
theorem deploy_rollback_restores_code_witness :
    c1Out.result = Except.error DeployErr.depInstall ∧
    c1Out.fs (code_path "p" "f") = some (strBytes "old") :=
  deploy_rollback_restores_code c1Oracles "p" "f" (strBytes c1Text)
    (some (strBytes "requests==2.0")) none c1Fs [] c1Text (strBytes "old")
    (by decide) rfl rfl (by decide) (by decide) (Or.inl rfl) rfl

/-- C3 counterexample: on the rollback path the operation finishes (raising
the dependency-install error) with the backup file STILL on disk — the
`os.remove(backup_path)` at line 229 sits after the `raise` and is never
reached — refuting the claim that the backup is removed on both paths. -/
theorem deploy_backup_left_behind :
    c1Out.result = Except.error DeployErr.depInstall ∧
    c1Out.fs (backup_path "p" "f") = some (strBytes "old") :=
  ⟨rfl, rfl⟩

/-- C3 amended: the backup file is always removed on the success path, but
on the dependency-install rollback path it is left behind (holding the
prior code content). -/
theorem deploy_backup_fate (decode : List Nat → Option String)
    (compiles : String → Bool) (p f : String) (code : List Nat)
    (requirements : Option (List Nat)) (env_vars : Option (List (String × String)))
    (fs : Fs) (env : EnvStore) (code_str : String) (c0 : List Nat)
    (h1 : ¬(code = [] ∨ (stripBytes code).length = 0))
    (hdec : decode code = some code_str)
    (hcomp : compiles code_str = true)
    (hmain : ¬(strContains code_str "def main(" = false ∧
      strContains code_str "async def main(" = false))
    (hprior : fs (code_path p f) = some c0) :
    ((deploy_function ⟨decode, compiles, true⟩ p f code requirements env_vars
        fs env).result = Except.ok () ∧
      (deploy_function ⟨decode, compiles, true⟩ p f code requirements env_vars
        fs env).fs (backup_path p f) = none) ∧
    (requirements.isSome = true ∨ fsExists fs (req_path p) = true →
      (deploy_function ⟨decode, compiles, false⟩ p f code requirements env_vars
        fs env).result = Except.error DeployErr.depInstall ∧
      (deploy_function ⟨decode, compiles, false⟩ p f code requirements env_vars
        fs env).fs (backup_path p f) = some c0) := by
  have hcp_bp := code_ne_backup p f
  have hrp_cp := req_ne_code p p f
  have hrp_bp := req_ne_backup p p f
  constructor
  · cases requirements with
    | some r =>
      have hbp3 : fsSet (fsSet (fsSet fs (backup_path p f) c0) (code_path p f)
          code) (req_path p) r (backup_path p f) = some c0 := by
        simp [fsSet, hrp_bp.symm, hcp_bp.symm]
      simp only [deploy_function, hdec, hprior]
      rw [if_neg h1, if_neg (by simp [hcomp]), if_neg hmain,
        if_neg (by simp), if_pos (by simp [fsExists, hbp3])]
      exact ⟨rfl, by simp [fsRemove]⟩
    | none =>
      have hbp3 : fsSet (fsSet fs (backup_path p f) c0) (code_path p f) code
          (backup_path p f) = some c0 := by
        simp [fsSet, hcp_bp.symm]
      simp only [deploy_function, hdec, hprior]
      rw [if_neg h1, if_neg (by simp [hcomp]), if_neg hmain,
        if_neg (by simp), if_pos (by simp [fsExists, hbp3])]
      exact ⟨rfl, by simp [fsRemove]⟩
  · intro hreq
    have h := deploy_rollback_props ⟨decode, compiles, false⟩ p f code
      requirements env_vars fs env code_str c0 h1 hdec hcomp hmain hprior hreq rfl
    exact ⟨h.1, h.2.2⟩

/-- C3 witness: the amended theorem at the concrete deployment, with both
the success arm and the rollback arm discharged. -/
theorem deploy_backup_fate_witness :
    ((deploy_function ⟨fun _ => some c1Text, fun _ => true, true⟩ "p" "f"
        (strBytes c1Text) (some (strBytes "requests==2.0")) none c1Fs
        []).result = Except.ok () ∧
      (deploy_function ⟨fun _ => some c1Text, fun _ => true, true⟩ "p" "f"
        (strBytes c1Text) (some (strBytes "requests==2.0")) none c1Fs
        []).fs (backup_path "p" "f") = none) ∧
    ((deploy_function ⟨fun _ => some c1Text, fun _ => true, false⟩ "p" "f"
        (strBytes c1Text) (some (strBytes "requests==2.0")) none c1Fs
        []).result = Except.error DeployErr.depInstall ∧
      (deploy_function ⟨fun _ => some c1Text, fun _ => true, false⟩ "p" "f"
        (strBytes c1Text) (some (strBytes "requests==2.0")) none c1Fs
        []).fs (backup_path "p" "f") = some (strBytes "old")) := by
  have h := deploy_backup_fate (fun _ => some c1Text) (fun _ => true) "p" "f"
    (strBytes c1Text) (some (strBytes "requests==2.0")) none c1Fs [] c1Text
    (strBytes "old") (by decide) rfl rfl (by decide) (by decide)
  exact ⟨h.1, h.2 (Or.inl rfl)⟩

/-- Filesystem holding only a stale backup file for ("p", "f") — a state
this program itself can reach: a failed deployment rollback leaves the
backup behind (see the C3 counterexample) and `delete_function`
(lines 292-307) removes the code file and the per-function requirements
file but never the `.bak`. -/
def c10Fs : Fs :=
  fun q => if q = backup_path "p" "f" then some (strBytes "stale") else none

/-- C10 counterexample: with NO prior code file (so this deployment takes
no backup) but a stale backup file on disk, a deployment whose dependency
installation fails does raise, yet the newly written code file does NOT
remain observable: the rollback guard `os.path.exists(backup_path)` at
line 223 is true and line 225 copies the stale backup over the fresh code
file.  The claim's conclusion fails at this concrete in-scope input. -/
theorem deploy_stale_backup_counterexample :
    c10Fs (code_path "p" "f") = none ∧
    (deploy_function c1Oracles "p" "f" (strBytes c1Text)
      (some (strBytes "requests==2.0")) none c10Fs []).result =
      Except.error DeployErr.depInstall ∧
    (deploy_function c1Oracles "p" "f" (strBytes c1Text)
      (some (strBytes "requests==2.0")) none c10Fs []).fs
      (code_path "p" "f") = some (strBytes "stale") ∧
    strBytes "stale" ≠ strBytes c1Text :=
  ⟨rfl, rfl, rfl, by decide⟩

/-- C10 amended: when no prior code file exists (so no backup is taken)
AND no stale backup file is present at the backup path, and the dependency
installation fails, the operation raises the dependency-install error but
the freshly written code file — and the freshly written manifest, when one
was supplied — remain on disk and are observable afterwards. -/
theorem deploy_no_prior_keeps_new_files (oracles : DeployOracles)
    (p f : String) (code : List Nat) (requirements : Option (List Nat))
    (env_vars : Option (List (String × String))) (fs : Fs) (env : EnvStore)
    (code_str : String)
    (h1 : ¬(code = [] ∨ (stripBytes code).length = 0))
    (hdec : oracles.decode code = some code_str)
    (hcomp : oracles.compiles code_str = true)
    (hmain : ¬(strContains code_str "def main(" = false ∧
      strContains code_str "async def main(" = false))
    (hnoprior : fs (code_path p f) = none)
    (hnobak : fs (backup_path p f) = none)
    (hreq : requirements.isSome = true ∨ fsExists fs (req_path p) = true)
    (hpip : oracles.pipInstallOk = false) :
    (deploy_function oracles p f code requirements env_vars fs env).result =
      Except.error DeployErr.depInstall ∧
    (deploy_function oracles p f code requirements env_vars fs env).fs
      (code_path p f) = some code ∧
    (∀ r, requirements = some r →
      (deploy_function oracles p f code requirements env_vars fs env).fs
        (req_path p) = some r) := by
  have hcp_bp := code_ne_backup p f
  have hrp_cp := req_ne_code p p f
  have hrp_bp := req_ne_backup p p f
  cases requirements with
  | some r =>
    have hbp3 : fsSet (fsSet fs (code_path p f) code) (req_path p) r
        (backup_path p f) = none := by
      simp [fsSet, hrp_bp.symm, hcp_bp.symm, hnobak]
    have hrp3 : fsExists (fsSet (fsSet fs (code_path p f) code) (req_path p) r)
        (req_path p) = true := by
      simp [fsExists, fsSet]
    simp only [deploy_function, hdec, hnoprior]
    rw [if_neg h1, if_neg (by simp [hcomp]), if_neg hmain,
      if_pos ⟨hrp3, hpip⟩, hbp3]
    refine ⟨rfl, ?_, ?_⟩
    · simp [fsSet, hrp_cp.symm]
    · intro r2 hr2
      cases hr2
      simp [fsSet]
  | none =>
    have hreq' : fsExists fs (req_path p) = true := by
      rcases hreq with h | h
      · simp at h
      · exact h
    have hbp3 : fsSet fs (code_path p f) code (backup_path p f) = none := by
      simp [fsSet, hcp_bp.symm, hnobak]
    have hrp3 : fsExists (fsSet fs (code_path p f) code) (req_path p) = true := by
      simpa [fsExists, fsSet, hrp_cp] using hreq'
    simp only [deploy_function, hdec, hnoprior]
    rw [if_neg h1, if_neg (by simp [hcomp]), if_neg hmain,
      if_pos ⟨hrp3, hpip⟩, hbp3]
    refine ⟨rfl, ?_, ?_⟩
    · simp [fsSet]
    · intro r2 hr2
      cases hr2

/-- C10 witness: against an empty filesystem and a failing pip, the new code
file and the supplied manifest are still present after the raised failure. -/
theorem deploy_no_prior_keeps_new_files_witness :
    (deploy_function c1Oracles "p" "f" (strBytes c1Text)
      (some (strBytes "requests==2.0")) none emptyFs []).result =
      Except.error DeployErr.depInstall ∧
    (deploy_function c1Oracles "p" "f" (strBytes c1Text)
      (some (strBytes "requests==2.0")) none emptyFs []).fs
      (code_path "p" "f") = some (strBytes c1Text) ∧
    (∀ r, (some (strBytes "requests==2.0") : Option (List Nat)) = some r →
      (deploy_function c1Oracles "p" "f" (strBytes c1Text)
        (some (strBytes "requests==2.0")) none emptyFs []).fs
        (req_path "p") = some r) :=
  deploy_no_prior_keeps_new_files c1Oracles "p" "f" (strBytes c1Text)
    (some (strBytes "requests==2.0")) none emptyFs [] c1Text
    (by decide) rfl rfl (by decide) rfl rfl (Or.inl rfl) rfl

/-- Concrete payload for the entry-point check: the text contains
`def main(` only inside a comment, so it declares no `main` entry point,
yet it is non-empty, decodes, and compiles (a comment plus an assignment). -/
def cexMainText : String := "# def main(\nx = 1"

def cexMainOracles : DeployOracles := ⟨fun _ => some cexMainText, fun _ => true, true⟩

/-- C4 counterexample: a payload that does NOT declare a `main` entry point
(per the specification-side predicate `specDeclaresMain`: no top-level
`def main` / `async def main` line) is nevertheless deployed successfully,
mutating the filesystem, because line 189 only checks for the substring
`"def main("` — here satisfied inside a comment.  This refutes the claim
that such a payload fails with a validation error and leaves the
filesystem untouched. -/
theorem deploy_validation_counterexample :
    specDeclaresMain cexMainText = false ∧
    (deploy_function cexMainOracles "p" "f" (strBytes cexMainText) none none
      emptyFs []).result = Except.ok () ∧
    (deploy_function cexMainOracles "p" "f" (strBytes cexMainText) none none
      emptyFs []).fs (code_path "p" "f") = some (strBytes cexMainText) :=
  ⟨rfl, rfl, rfl⟩

/-- C4 amended: replacing "does not declare a `main` entry point" by the
check the source performs — the decoded text contains neither the substring
`"def main("` nor `"async def main("` — the claim holds: a payload that is
empty after trimming, fails to decode, fails to compile, or lacks the
substring, is rejected with a validation error and the filesystem is left
untouched. -/
theorem deploy_validation_gating (oracles : DeployOracles) (p f : String)
    (code : List Nat) (requirements : Option (List Nat))
    (env_vars : Option (List (String × String))) (fs : Fs) (env : EnvStore)
    (hbad : (code = [] ∨ (stripBytes code).length = 0) ∨
      oracles.decode code = none ∨
      (∃ s, oracles.decode code = some s ∧ oracles.compiles s = false) ∨
      (∃ s, oracles.decode code = some s ∧
        strContains s "def main(" = false ∧
        strContains s "async def main(" = false)) :
    ∃ e, (deploy_function oracles p f code requirements env_vars fs env).result =
        Except.error e ∧
      DeployErr.isValidationError e = true ∧
      (deploy_function oracles p f code requirements env_vars fs env).fs = fs := by
  by_cases h1 : (code = [] ∨ (stripBytes code).length = 0)
  · have hout : deploy_function oracles p f code requirements env_vars fs env =
        ⟨fs, env, .error .emptyCode⟩ := by
      unfold deploy_function
      rw [if_pos h1]
    exact ⟨.emptyCode, by rw [hout], rfl, by rw [hout]⟩
  · cases hdec2 : oracles.decode code with
    | none =>
      have hout : deploy_function oracles p f code requirements env_vars fs env =
          ⟨fs, env, .error .invalidFormat⟩ := by
        simp only [deploy_function, hdec2]
        rw [if_neg h1]
      exact ⟨.invalidFormat, by rw [hout], rfl, by rw [hout]⟩
    | some s =>
      by_cases hc : oracles.compiles s = false
      · have hout : deploy_function oracles p f code requirements env_vars fs env =
            ⟨fs, env, .error .invalidFormat⟩ := by
          simp only [deploy_function, hdec2]
          rw [if_neg h1, if_pos hc]
        exact ⟨.invalidFormat, by rw [hout], rfl, by rw [hout]⟩
      · have hm : strContains s "def main(" = false ∧
            strContains s "async def main(" = false := by
          rcases hbad with h | h | ⟨s2, hs2, hcf⟩ | ⟨s2, hs2, hm1, hm2⟩
          · exact absurd h h1
          · rw [hdec2] at h
            exact absurd h (by simp)
          · rw [hdec2] at hs2
            cases hs2
            exact absurd hcf hc
          · rw [hdec2] at hs2
            cases hs2
            exact ⟨hm1, hm2⟩
        have hout : deploy_function oracles p f code requirements env_vars fs env =
            ⟨fs, env, .error .missingMain⟩ := by
          simp only [deploy_function, hdec2]
          rw [if_neg h1, if_neg hc, if_pos hm]
        exact ⟨.missingMain, by rw [hout], rfl, by rw [hout]⟩

/-- C4 witness: the empty payload is rejected with a validation error and
the filesystem is unchanged. -/
theorem deploy_validation_gating_witness :
    ∃ e, (deploy_function cexMainOracles "p" "f" [] none none emptyFs
        []).result = Except.error e ∧
      DeployErr.isValidationError e = true ∧
      (deploy_function cexMainOracles "p" "f" [] none none emptyFs []).fs =
        emptyFs :=
  deploy_validation_gating cexMainOracles "p" "f" [] none none emptyFs []
    (Or.inl (Or.inl rfl))
